import Mathlib

/-!
Verification development for the SimPleAC tutorial notebook
(`tutorial/02 - Design Optimization/03 - Aircraft Design - SimPleAC.ipynb`)
and for the minimal NLP optimization engine its specification describes.

Part 1 embeds, as exact rationals, the constants of the notebook and the
recorded outputs of its single solve (the IPOPT log of cell 13 and the
printed values of cells 15 and 17).

Part 2 models, from the specification, the engine components that the
notebook calls but whose code is not part of this repository: the Variable
Store (log-transform reparameterization), the Expression Builder (DAG of
expression nodes, domain-error policy, memoized forward evaluation), the
Constraint/Objective Registry (normalization, structural checks) and the
Interior-Point Solver loop (status state machine, iteration ceiling,
divergence on domain errors).
-/

namespace AeroSandboxSpec

/-! ## Part 1: constants of the notebook (cell 3), as exact rationals -/

/-- Gravitational acceleration, m/s^2 (cell 3). -/
def g : ℚ := 981/100

/-- Viscosity of air, kg/m/s (cell 3). -/
def mu : ℚ := 1775/100000000

/-- Density of air, kg/m^3 (cell 3). -/
def rho : ℚ := 123/100

/-- Density of fuel, kg/m^3 (cell 3). -/
def rho_f : ℚ := 817

/-- Stall lift coefficient (cell 3). -/
def C_Lmax : ℚ := 16/10

/-- Oswald efficiency factor (cell 3). -/
def e : ℚ := 92/100

/-- Form factor (cell 3). -/
def k : ℚ := 117/100

/-- Ultimate load factor (cell 3). -/
def N_ult : ℚ := 33/10

/-- Wetted area ratio (cell 3). -/
def S_wet_over_S : ℚ := 2075/1000

/-- Airfoil thickness to chord ratio (cell 3). -/
def tau : ℚ := 12/100

/-- Wing weight coefficient 1 (cell 3). -/
def W_W_coeff1 : ℚ := 2/100000

/-- Wing weight coefficient 2 (cell 3). -/
def W_W_coeff2 : ℚ := 60

/-- Aircraft range, m (cell 3). -/
def Range : ℚ := 1000000

/-- Thrust specific fuel consumption, 1/sec (cell 3). -/
def TSFC : ℚ := (6/10)/3600

/-- Takeoff speed, m/s (cell 3). -/
def V_min : ℚ := 25

/-- Aircraft weight excluding wing, N (cell 3). -/
def W_0 : ℚ := 6250

/-! ## Terminal status of a solve, per the specification's state machine -/

/-- Terminal states of the Interior-Point Solver state machine
(`Initialized → Iterating → {Converged, MaxIterExceeded, Diverged,
InfeasibleDetected}`). -/
inductive SolveStatus where
  | converged
  | maxIterExceeded
  | diverged
  | infeasibleDetected
deriving DecidableEq

/-! ## The recorded SimPleAC solve -/

/-- The outputs of the notebook's single recorded solve: the IPOPT log of
cell 13 (`EXIT: Optimal Solution Found`, `Number of Iterations....: 26`)
and the printed variable and auxiliary values of cells 15 and 17, embedded
as exact rationals (the values are printed to 6 significant figures). -/
structure RecordedSolve where
  status : SolveStatus
  iterCount : ℕ
  V : ℚ
  W : ℚ
  C_L : ℚ
  W_f : ℚ
  A : ℚ
  S : ℚ
  V_f_fuse : ℚ
  V_f : ℚ
  V_f_wing : ℚ
  V_f_avail : ℚ
  W_w : ℚ
  W_w_strc : ℚ
  W_w_surf : ℚ

/-- The recorded solve of the notebook: IPOPT exits with
`Optimal Solution Found` after 26 iterations (cell 13), and the printed
solution and auxiliary values are those of cells 15 and 17. -/
def simpleacRecorded : RecordedSolve where
  status := .converged
  iterCount := 26
  V := 57106/1000
  W := 870482/100
  C_L := 290128/1000000
  W_f := 937756/1000
  A := 121049/10000
  S := 141542/10000
  V_f_fuse := 619038/10000000
  V_f := 117003/1000000
  V_f_wing := 550997/10000000
  V_f_avail := 117003/1000000
  W_w := 151706/100
  W_w_strc := 667811/1000
  W_w_surf := 84925/100

/-- Default feasibility tolerance of the solver (1e-8). -/
def feasibilityTol : ℚ := 1/100000000

/-! ## Part 2: the engine, modelled from the specification

The optimization engine the notebook calls (`asb.Opti`: variable store,
expression builder with reverse-mode differentiation, constraint registry,
interior-point solver) is not part of this repository; only its caller is.
The definitions below are modelled from the specification (sections 3, 4,
7) and are the reference against which the engine-level claims are
settled. -/

/-- Structural errors of the engine, from the specification's error
taxonomy (section 7): caller mistakes detected eagerly, before any
iteration begins. -/
inductive StructuralError where
  | invalidBounds
  | duplicateObjective
  | noObjective
  | noFreeVariables
deriving DecidableEq

/-- Modelled from the spec: a Variable of the Variable Store (section 3).
It has an initial guess, optional bounds, a log-transform flag and a
current stored optimization coordinate; when the log-transform flag is
set, the stored coordinate is the logarithm of the public value. -/
structure EngineVar where
  logTransform : Bool
  lowerBound : Option ℝ
  upperBound : Option ℝ
  initGuess : ℝ
  coord : ℝ

/-- Modelled from the spec: the public value of a Variable (section 3).
For a log-transformed variable the inverse transform is an exponential of
the stored coordinate; otherwise the coordinate is the value itself. -/
noncomputable def EngineVar.value (v : EngineVar) : ℝ :=
  if v.logTransform then Real.exp v.coord else v.coord

/-- Whether a pair of optional bounds is well formed (section 4.1 fails
with `InvalidBoundsError` when `lower_bound > upper_bound`). -/
def boundsOk (lb ub : Option ℝ) : Prop :=
  match lb, ub with
  | some a, some b => a ≤ b
  | _, _ => True

open Classical in
/-- Modelled from the spec: `declare(initial_guess, lower_bound?,
upper_bound?, log_transform)` of the Variable Store (section 4.1). It
fails with `InvalidBoundsError` when `lower_bound > upper_bound` or when
`log_transform` is set with a non-positive initial guess; otherwise the
stored coordinate is `ln(initial_guess)` for a log-transformed variable
and the guess itself for a plain one. -/
noncomputable def declareVariable (g0 : ℝ) (lb ub : Option ℝ) (lt : Bool) :
    Except StructuralError EngineVar :=
  if boundsOk lb ub then
    if lt = true ∧ g0 ≤ 0 then .error .invalidBounds
    else .ok ⟨lt, lb, ub, g0, if lt then Real.log g0 else g0⟩
  else .error .invalidBounds

/-! ### Expression Builder: computation graph and domain-error policy -/

/-- Unary operations of the Expression Builder (section 3). -/
inductive Op1 where
  | sqrt
  | log
  | exp
  | neg
deriving DecidableEq

/-- Binary operations of the Expression Builder (section 3). -/
inductive Op2 where
  | add
  | sub
  | mul
  | div
deriving DecidableEq

/-- Modelled from the spec: an expression tree over variables and
constants (section 3): leaves are variable references, numeric constants
or the constant pi (the notebook uses `np.pi`); interior nodes are the
elementary arithmetic, power and transcendental operations. -/
inductive Expr where
  | const : ℝ → Expr
  | pi : Expr
  | var : ℕ → Expr
  | un : Op1 → Expr → Expr
  | bin : Op2 → Expr → Expr → Expr
  | powN : Expr → ℕ → Expr
  | powQ : Expr → ℚ → Expr

/-- Modelled from the spec: a `DomainError` carries the offending node and
the offending input value (section 4.2). -/
structure DomainError where
  node : Expr
  input : ℝ

open Classical in
/-- Modelled from the spec: forward evaluation of an expression under an
assignment of values to variables (section 4.2). Operations applied
outside their mathematical domain (square root of a negative value,
logarithm of a non-positive value, division by zero, fractional power of a
negative base) fail with a `DomainError` identifying the offending node
and input value; evaluation never silently produces a junk value for such
inputs. -/
noncomputable def evalE (env : ℕ → ℝ) : Expr → Except DomainError ℝ
  | .const c => .ok c
  | .pi => .ok Real.pi
  | .var i => .ok (env i)
  | .un op a =>
      match evalE env a with
      | .error er => .error er
      | .ok x =>
          match op with
          | .neg => .ok (-x)
          | .exp => .ok (Real.exp x)
          | .sqrt => if x < 0 then .error ⟨.un .sqrt a, x⟩ else .ok (Real.sqrt x)
          | .log => if x ≤ 0 then .error ⟨.un .log a, x⟩ else .ok (Real.log x)
  | .bin op a b =>
      match evalE env a with
      | .error er => .error er
      | .ok x =>
          match evalE env b with
          | .error er => .error er
          | .ok y =>
              match op with
              | .add => .ok (x + y)
              | .sub => .ok (x - y)
              | .mul => .ok (x * y)
              | .div => if y = 0 then .error ⟨.bin .div a b, y⟩ else .ok (x / y)
  | .powN a n =>
      match evalE env a with
      | .error er => .error er
      | .ok x => .ok (x ^ n)
  | .powQ a q =>
      match evalE env a with
      | .error er => .error er
      | .ok x =>
          if x < 0 then .error ⟨.powQ a q, x⟩
          else if x = 0 ∧ q ≤ 0 then .error ⟨.powQ a q, x⟩
          else .ok (x ^ (q : ℝ))

/-! ### Constraint/Objective Registry -/

/-- Relations accepted by `add_constraint` (section 6). -/
inductive Rel where
  | le
  | ge
  | eq
deriving DecidableEq

/-- Modelled from the spec: a registered constraint, a relational
expression between two expression subgraphs (section 3). -/
structure Constraint where
  lhs : Expr
  rel : Rel
  rhs : Expr

/-- Modelled from the spec: normalization of a constraint to the canonical
form `g(x) ≤ 0` or `h(x) = 0` (section 4.3): `lhs ≤ rhs` becomes
`lhs - rhs ≤ 0`, `lhs ≥ rhs` becomes `rhs - lhs ≤ 0`, and `lhs = rhs`
becomes `lhs - rhs = 0`. -/
def Constraint.canonical (c : Constraint) : Expr :=
  match c.rel with
  | .le => .bin .sub c.lhs c.rhs
  | .ge => .bin .sub c.rhs c.lhs
  | .eq => .bin .sub c.lhs c.rhs

/-- Whether a constraint normalizes to an equality `h(x) = 0` rather than
an inequality `g(x) ≤ 0`. -/
def Constraint.isEquality (c : Constraint) : Bool :=
  match c.rel with
  | .eq => true
  | _ => false

/-- Modelled from the spec: the residual violation of a constraint at an
assignment: `max g 0` for a canonical inequality `g(x) ≤ 0` and `|h|` for
a canonical equality `h(x) = 0`, so that a constraint holds within
`feasibility_tol` exactly when its violation is at most the tolerance
(sections 4.3 and 8). -/
noncomputable def Constraint.violAt (c : Constraint) (env : ℕ → ℝ) :
    Except DomainError ℝ :=
  match evalE env c.canonical with
  | .error er => .error er
  | .ok x => if c.isEquality then .ok |x| else .ok (max x 0)

/-- Modelled from the spec: the stacked vector of constraint violations at
an assignment, in registration order (section 4.3); a `DomainError` in any
constraint evaluation surfaces as a failure of the whole pass. -/
noncomputable def residuals (env : ℕ → ℝ) :
    List Constraint → Except DomainError (List ℝ)
  | [] => .ok []
  | c :: cs =>
      match c.violAt env with
      | .error er => .error er
      | .ok v =>
          match residuals env cs with
          | .error er => .error er
          | .ok vs => .ok (v :: vs)

/-- Modelled from the spec: the problem state an `Opti` environment
accumulates before a solve: declared variables, registered constraints in
registration order, and at most one objective expression (sections 2
and 3). -/
structure OptiState where
  vars : List EngineVar
  constraints : List Constraint
  objective : Option Expr

/-- Modelled from the spec: the structural check of `finalize()`
(section 4.3): it fails with `NoObjectiveError` if no objective was set
and with `NoFreeVariablesError` if the Variable Store is empty. -/
def finalize (o : OptiState) : Except StructuralError Unit :=
  match o.objective with
  | none => .error .noObjective
  | some _ =>
      match o.vars with
      | [] => .error .noFreeVariables
      | _ :: _ => .ok ()

/-! ### Interior-Point Solver loop -/

/-- Modelled from the spec: the cause attached to a `Diverged` terminal
state (section 4.4): either a `DomainError` raised during an evaluation
inside an iteration, or a line-search failure (no accepted step within the
bounded number of backtracks). -/
inductive FailureCause where
  | domain : DomainError → FailureCause
  | lineSearch : FailureCause

/-- Modelled from the spec: the outcome of the iteration loop: the last
iterate, the terminal status, the number of iterations run, and the root
cause when the solve diverged (sections 3 and 4.4); a non-converged
result still exposes the last iterate and diagnostics. -/
structure SolveResult where
  env : ℕ → ℝ
  status : SolveStatus
  iterCount : ℕ
  cause : Option FailureCause

open Classical in
/-- Modelled from the spec: the Interior-Point Solver's iteration loop
(section 4.4), abstracted over the Newton/barrier step. At each iteration
it evaluates the constraint residuals at the current iterate; a
`DomainError` immediately terminates the solve as `Diverged` with that
error as root cause; if the feasibility check (violations within `tol`)
and the remaining convergence checks (`conv`, standing for the
stationarity and complementarity tolerances, whose numeric details the
specification leaves open) hold, the loop terminates `Converged` at that
iterate; otherwise one step is taken (`step` returning `none` models a
line-search failure, which terminates `Diverged`), until the iteration
budget is exhausted, in which case the loop terminates `MaxIterExceeded`
with the last iterate rather than raising. -/
noncomputable def iterate (cs : List Constraint) (tol : ℝ)
    (conv : (ℕ → ℝ) → Prop) (step : (ℕ → ℝ) → Option (ℕ → ℝ)) :
    ℕ → (ℕ → ℝ) → ℕ → SolveResult
  | 0, env, n => ⟨env, .maxIterExceeded, n, none⟩
  | fuel + 1, env, n =>
      match residuals env cs with
      | .error er => ⟨env, .diverged, n, some (.domain er)⟩
      | .ok rs =>
          if (∀ r ∈ rs, r ≤ tol) ∧ conv env then ⟨env, .converged, n, none⟩
          else
            match step env with
            | none => ⟨env, .diverged, n, some .lineSearch⟩
            | some env2 => iterate cs tol conv step fuel env2 (n + 1)

/-- Modelled from the spec: writing the final assignment back into the
Variable Store at the end of a solve (section 2: the Solver writes back
final values into a Solution keyed by variable identity). -/
def writeBack (o : OptiState) (env : ℕ → ℝ) : OptiState :=
  let vs := List.zipWith (fun i v => { v with coord := env i })
    (List.range o.vars.length) o.vars
  { o with vars := vs }

/-- Modelled from the spec: `solve` (sections 4.4 and 6). Structural
errors are detected by `finalize` eagerly, before any iteration executes,
and leave the problem state untouched; otherwise the iteration loop runs
and its final assignment is written back into the store. -/
noncomputable def solve (o : OptiState) (tol : ℝ) (conv : (ℕ → ℝ) → Prop)
    (step : (ℕ → ℝ) → Option (ℕ → ℝ)) (maxIter : ℕ) (env0 : ℕ → ℝ) :
    OptiState × Except StructuralError SolveResult :=
  match finalize o with
  | .error er => (o, .error er)
  | .ok _ =>
      let r := iterate o.constraints tol conv step maxIter env0 0
      (writeBack o r.env, .ok r)

/-! ## The SimPleAC problem, embedded from the notebook (cells 5-13) -/

/-- Embedding of a rational constant of the notebook as an expression. -/
def eC (q : ℚ) : Expr := .const (q : ℝ)

/-- Addition node. -/
def eAdd (a b : Expr) : Expr := .bin .add a b

/-- Subtraction node. -/
def eSub (a b : Expr) : Expr := .bin .sub a b

/-- Multiplication node. -/
def eMul (a b : Expr) : Expr := .bin .mul a b

/-- Division node. -/
def eDiv (a b : Expr) : Expr := .bin .div a b

/-- Square-root node (`np.sqrt`). -/
def eSqrt (a : Expr) : Expr := .un .sqrt a

/-- Cruise speed `V` (cell 5, variable index 0, log-transformed). -/
def vV : Expr := .var 0

/-- Total aircraft weight `W` (cell 5, variable index 1, lower bound 0). -/
def vW : Expr := .var 1

/-- Lift coefficient `C_L` (cell 5, variable index 2, log-transformed). -/
def vCL : Expr := .var 2

/-- Fuel weight `W_f` (cell 5, variable index 3, lower bound 0). -/
def vWf : Expr := .var 3

/-- Aspect ratio `A` (cell 5, variable index 4, log-transformed). -/
def vA : Expr := .var 4

/-- Total wing area `S` (cell 5, variable index 5, log-transformed). -/
def vS : Expr := .var 5

/-- Fuel volume in the fuselage `V_f_fuse` (cell 5, variable index 6,
lower bound 0). -/
def vVfFuse : Expr := .var 6

/-- Wing skin weight `W_w_surf = W_W_coeff2 * S` (cell 7). -/
def wWsurf : Expr := eMul (eC W_W_coeff2) vS

/-- Wing structural weight
`W_w_strc = W_W_coeff1 / tau * N_ult * A ** 1.5 *
sqrt((W_0 + V_f_fuse * g * rho_f) * W * S)` (cell 7). -/
def wWstrc : Expr :=
  eMul
    (eMul (eMul (eDiv (eC W_W_coeff1) (eC tau)) (eC N_ult)) (.powQ vA (3/2)))
    (eSqrt (eMul (eMul (eAdd (eC W_0) (eMul (eMul vVfFuse (eC g)) (eC rho_f))) vW) vS))

/-- Wing weight `W_w = W_w_surf + W_w_strc` (cell 7), the subexpression
shared by the weight-buildup and lift-equals-weight constraints. -/
def wW : Expr := eAdd wWsurf wWstrc

/-- Flight duration `T_flight = Range / V` (cell 7). -/
def tFlight : Expr := eDiv (eC Range) vV

/-- Reynolds number `Re = (rho / mu) * V * (S / A) ** 0.5` (cell 9). -/
def reynolds : Expr :=
  eMul (eMul (eDiv (eC rho) (eC mu)) vV) (.powQ (eDiv vS vA) (1/2))

/-- Skin friction coefficient `C_f = 0.074 / Re ** 0.2` (cell 9). -/
def cF : Expr := eDiv (eC (74/1000)) (.powQ reynolds (1/5))

/-- Fuselage drag area `CDA0 = V_f_fuse / 10` (cell 9). -/
def cda0 : Expr := eDiv vVfFuse (eC 10)

/-- Drag coefficient
`C_D = CDA0 / S + k * C_f * S_wetratio + C_L ** 2 / (pi * A * e)`
(cell 9). -/
def cD : Expr :=
  eAdd
    (eAdd (eDiv cda0 vS) (eMul (eMul (eC k) cF) (eC S_wet_over_S)))
    (eDiv (.powN vCL 2) (eMul (eMul Expr.pi vA) (eC e)))

/-- Total drag force `D = 0.5 * rho * S * C_D * V ** 2` (cell 9). -/
def dragD : Expr :=
  eMul (eMul (eMul (eMul (eC (1/2)) (eC rho)) vS) cD) (.powN vV 2)

/-- Required fuel volume `V_f = W_f / g / rho_f` (cell 11). -/
def vF : Expr := eDiv (eDiv vWf (eC g)) (eC rho_f)

/-- Fuel volume in the wing `V_f_wing = 0.03 * S ** 1.5 / A ** 0.5 * tau`
(cell 11). -/
def vFwing : Expr :=
  eMul (eDiv (eMul (eC (3/100)) (.powQ vS (3/2))) (.powQ vA (1/2))) (eC tau)

/-- Available fuel volume `V_f_avail = V_f_wing + V_f_fuse` (cell 11). -/
def vFavail : Expr := eAdd vFwing vVfFuse

/-- The SimPleAC constraint set in registration order: the three
lower-bound constraints of the declarations of cell 5 (the specification's
recommended design registers variable bounds as explicit inequality
constraints), then the weight buildup, the two lift constraints (cell 7),
the fuel burn constraint (cell 9) and the fuel volume constraint
(cell 11) - eight inequality constraints, matching the IPOPT log of
cell 13. -/
def simpleacConstraints : List Constraint :=
  [ ⟨vW, .ge, eC 0⟩,
    ⟨vWf, .ge, eC 0⟩,
    ⟨vVfFuse, .ge, eC 0⟩,
    ⟨vW, .ge, eAdd (eAdd (eC W_0) wW) vWf⟩,
    ⟨eAdd (eAdd (eC W_0) wW) (eMul (eC (1/2)) vWf), .le,
      eMul (eMul (eMul (eMul (eC (1/2)) (eC rho)) vS) vCL) (.powN vV 2)⟩,
    ⟨vW, .le,
      eMul (eMul (eMul (eMul (eC (1/2)) (eC rho)) vS) (eC C_Lmax)) (.powN (eC V_min) 2)⟩,
    ⟨vWf, .ge, eMul (eMul (eC TSFC) tFlight) dragD⟩,
    ⟨vFavail, .ge, vF⟩ ]

/-- The initial guesses of cell 5:
`V=100, W=10000, C_L=0.6, W_f=2000, A=15, S=30, V_f_fuse=0.5`. -/
noncomputable def simpleacInitGuess : ℕ → ℝ := fun i =>
  match i with
  | 0 => 100
  | 1 => 10000
  | 2 => 3/5
  | 3 => 2000
  | 4 => 15
  | 5 => 30
  | _ => 1/2

/-- The initial guesses of the divergence experiment discussed in cell 18:
the guess for `V` changed to 10000 m/s, all others unchanged. -/
noncomputable def simpleacInitGuessV10000 : ℕ → ℝ := fun i =>
  match i with
  | 0 => 10000
  | j => simpleacInitGuess j

/-! ## Memoized forward evaluation over an expression DAG

Modelled from the spec (sections 3 and 9): shared subexpressions make the
computation graph a directed acyclic graph, represented explicitly as a
list of nodes indexed by position, each node referring to its children by
index; forward evaluation is memoized by node identity (the index) and
evaluates each node at most once per pass. -/

/-- Modelled from the spec: a node of the explicit
DAG-of-nodes-by-index structure (section 9): a leaf (numeric constant or
variable reference) or an operation whose children are node indices. -/
inductive DagNode where
  | cnst : ℝ → DagNode
  | varn : ℕ → DagNode
  | un : Op1 → ℕ → DagNode
  | bin : Op2 → ℕ → ℕ → DagNode
  | pow : ℕ → ℚ → DagNode

/-- A domain error raised during DAG evaluation, identifying the offending
node by its identity (index) and the offending input value. -/
structure DagError where
  node : ℕ
  input : ℝ

/-- The child indices of a DAG node. -/
def childrenOf : DagNode → List ℕ
  | .cnst _ => []
  | .varn _ => []
  | .un _ j => [j]
  | .bin _ j l => [j, l]
  | .pow j _ => [j]

/-- A DAG is well formed when every node's children precede it, so the
graph is acyclic by construction. -/
def DagWf (gr : List DagNode) : Prop :=
  ∀ i < gr.length, ∀ j ∈ childrenOf ((gr[i]?).getD (.cnst 0)), j < i

open Classical in
/-- Modelled from the spec: the forward evaluation rule of one DAG node
(section 4.2), given the values of its children through a lookup
function; out-of-domain inputs produce a `DagError` naming the node. -/
noncomputable def nodeEval (env : ℕ → ℝ) (i : ℕ) (nd : DagNode)
    (get : ℕ → Except DagError ℝ) : Except DagError ℝ :=
  match nd with
  | .cnst c => .ok c
  | .varn v => .ok (env v)
  | .un op j => do
      let x ← get j
      match op with
      | .neg => .ok (-x)
      | .exp => .ok (Real.exp x)
      | .sqrt => if x < 0 then .error ⟨i, x⟩ else .ok (Real.sqrt x)
      | .log => if x ≤ 0 then .error ⟨i, x⟩ else .ok (Real.log x)
  | .bin op j l => do
      let x ← get j
      let y ← get l
      match op with
      | .add => .ok (x + y)
      | .sub => .ok (x - y)
      | .mul => .ok (x * y)
      | .div => if y = 0 then .error ⟨i, y⟩ else .ok (x / y)
  | .pow j q => do
      let x ← get j
      if x < 0 then .error ⟨i, x⟩
      else if x = 0 ∧ q ≤ 0 then .error ⟨i, x⟩
      else .ok (x ^ (q : ℝ))

/-- Naive recursive evaluation of the tree-expansion rooted at node `i`:
every reference to a child re-evaluates the child's whole subtree, so a
node reachable by several paths is re-evaluated once per path. A child
reference that does not precede its parent falls outside the
tree-expansion and evaluates to an error naming it. -/
noncomputable def naiveEval (gr : List DagNode) (env : ℕ → ℝ) :
    ℕ → Except DagError ℝ
  | i =>
    match gr[i]? with
    | none => .error ⟨i, 0⟩
    | some nd =>
        nodeEval env i nd
          (fun j => if _ : j < i then naiveEval gr env j else .error ⟨j, 0⟩)
termination_by i => i

/-- The memoized computation of one node's table entry: the node's single
`nodeEval` application, whose child lookups read the memo table `t` of the
already-processed prefix. -/
noncomputable def memoEntry (gr : List DagNode) (env : ℕ → ℝ)
    (t : List (Except DagError ℝ)) (n : ℕ) : Except DagError ℝ :=
  match gr[n]? with
  | none => .error ⟨n, 0⟩
  | some nd => nodeEval env n nd (fun j => (t[j]?).getD (.error ⟨j, 0⟩))

/-- Modelled from the spec: one memoized forward evaluation pass over the
whole DAG (sections 3 and 9): nodes are processed in index order, each
node's value is computed exactly once by one `memoEntry` application
whose child lookups read the memo table, and the pass also counts its
`memoEntry` applications (second component). -/
noncomputable def memoPass (gr : List DagNode) (env : ℕ → ℝ) :
    ℕ → List (Except DagError ℝ) × ℕ
  | 0 => ([], 0)
  | n + 1 =>
      ((memoPass gr env n).1 ++ [memoEntry gr env (memoPass gr env n).1 n],
        (memoPass gr env n).2 + 1)

/-- The memo table of one full memoized pass over the DAG. -/
noncomputable def memoEval (gr : List DagNode) (env : ℕ → ℝ) :
    List (Except DagError ℝ) :=
  (memoPass gr env gr.length).1

/-- The number of `nodeEval` applications one full memoized pass
performs. -/
noncomputable def memoEvalOps (gr : List DagNode) (env : ℕ → ℝ) : ℕ :=
  (memoPass gr env gr.length).2

/-- Interval certificate for the forward evaluator: the expression
evaluates without domain error to a value between `lo` and `hi`. -/
def EvalIn (env : ℕ → ℝ) (e : Expr) (lo hi : ℝ) : Prop :=
  ∃ x, evalE env e = .ok x ∧ lo ≤ x ∧ x ≤ hi

/-! ## Theorems for the claims -/

/-- Claim C1: for the SimPleAC problem, the solve recorded in the notebook
(IPOPT log of cell 13, printed values of cell 15) terminates with
Converged status within 100 iterations (26 were used), and the recorded
solution satisfies W_f = 937.76 plus or minus 0.5, V = 57.11 plus or minus
0.5, A = 12.10 plus or minus 0.2. -/
theorem simpleac_recorded_solve_matches_claim :
    simpleacRecorded.status = SolveStatus.converged ∧
    simpleacRecorded.iterCount ≤ 100 ∧
    |simpleacRecorded.W_f - 93776/100| ≤ 1/2 ∧
    |simpleacRecorded.V - 5711/100| ≤ 1/2 ∧
    |simpleacRecorded.A - 121/10| ≤ 1/5 := by
  refine ⟨rfl, by norm_num [simpleacRecorded], ?_, ?_, ?_⟩ <;>
    (rw [abs_le]; constructor <;> norm_num [simpleacRecorded])

/-- Claim C10 counterexample: at the recorded solution values of the
notebook, the weight-buildup residual |W - (W_0 + W_w + W_f)| computed
from the printed values is 0.004, which is not within the feasibility
tolerance 1e-8; so the tightness of the weight-buildup inequality cannot
be asserted at the feasibility tolerance for the recorded values. -/
theorem weight_tightness_not_within_feasibility_tol :
    ¬ |simpleacRecorded.W - ((W_0 : ℚ) + simpleacRecorded.W_w + simpleacRecorded.W_f)|
        ≤ feasibilityTol := by
  intro h
  rw [abs_le] at h
  norm_num [simpleacRecorded, W_0, feasibilityTol] at h

/-- Claim C10 (amended): at the recorded SimPleAC solution the
weight-buildup and fuel-volume inequality constraints are active (tight)
within the 6-significant-figure precision of the recorded printed values:
the weight residual |W - (W_0 + W_w + W_f)| is at most 0.005
(8704.82 is within rounding of 6250 + 1517.06 + 937.756), and the printed
available and required fuel volumes are exactly equal
(V_f_avail = V_f = 0.117003). -/
theorem simpleac_recorded_active_constraints :
    |simpleacRecorded.W - ((W_0 : ℚ) + simpleacRecorded.W_w + simpleacRecorded.W_f)|
        ≤ 5/1000 ∧
    simpleacRecorded.V_f_avail = simpleacRecorded.V_f := by
  constructor
  · rw [abs_le]; constructor <;> norm_num [simpleacRecorded, W_0]
  · rfl

/-- Claim C2: declaring a variable with the log-transform flag and a
strictly positive initial guess g stores ln(g) as the internal
optimization coordinate; the public value of a log-transformed variable
equals the exponential of its stored coordinate and is therefore strictly
positive for every stored coordinate; and reading the value back without
iterating returns exactly g. -/
theorem log_transform_roundtrip (g0 : ℝ) (h : 0 < g0) :
    declareVariable g0 none none true =
      .ok ⟨true, none, none, g0, Real.log g0⟩ ∧
    (∀ z : ℝ, EngineVar.value ⟨true, none, none, g0, z⟩ = Real.exp z ∧
      0 < EngineVar.value ⟨true, none, none, g0, z⟩) ∧
    EngineVar.value ⟨true, none, none, g0, Real.log g0⟩ = g0 := by
  refine ⟨?_, ?_, ?_⟩
  · have hb : boundsOk (none : Option ℝ) none := trivial
    rw [declareVariable, if_pos hb, if_neg]
    · simp
    · rintro ⟨-, hle⟩
      exact absurd h (not_lt.mpr hle)
  · intro z
    constructor
    · simp [EngineVar.value]
    · simp [EngineVar.value, Real.exp_pos]
  · simp [EngineVar.value, Real.exp_log h]

/-- Claim C2 witness: the round trip at the concrete strictly positive
guess 1. -/
theorem log_transform_roundtrip_witness :
    (0 : ℝ) < 1 ∧ EngineVar.value ⟨true, none, none, 1, Real.log 1⟩ = 1 :=
  ⟨one_pos, (log_transform_roundtrip 1 one_pos).2.2⟩

/-- Claim C5: for every problem state with at least one variable and at
least one constraint registered but no objective set, solve fails with
NoObjectiveError for every tolerance, convergence test, step rule,
iteration budget and initial assignment, and returns the problem state
untouched: no solver iteration executes and no variable value is mutated
by the failed call. -/
theorem solve_without_objective_fails (o : OptiState)
    (hv : o.vars ≠ []) (hc : o.constraints ≠ []) (hobj : o.objective = none)
    (tol : ℝ) (conv : (ℕ → ℝ) → Prop) (step : (ℕ → ℝ) → Option (ℕ → ℝ))
    (maxIter : ℕ) (env0 : ℕ → ℝ) :
    solve o tol conv step maxIter env0 =
      (o, .error StructuralError.noObjective) := by
  rw [solve, finalize, hobj]

/-- Claim C5 witness: a concrete state with one variable and one
constraint and no objective. -/
theorem solve_without_objective_fails_witness :
    ([⟨false, none, none, 1, 1⟩] : List EngineVar) ≠ [] ∧
    ([⟨eC 1, Rel.ge, eC 0⟩] : List Constraint) ≠ [] ∧
    (OptiState.mk [⟨false, none, none, 1, 1⟩] [⟨eC 1, Rel.ge, eC 0⟩] none).objective
        = none ∧
    solve (OptiState.mk [⟨false, none, none, 1, 1⟩] [⟨eC 1, Rel.ge, eC 0⟩] none)
        1 (fun _ => True) (fun env => some env) 100 (fun _ => 0) =
      (OptiState.mk [⟨false, none, none, 1, 1⟩] [⟨eC 1, Rel.ge, eC 0⟩] none,
        .error StructuralError.noObjective) :=
  ⟨List.cons_ne_nil _ _, List.cons_ne_nil _ _, rfl,
    solve_without_objective_fails _ (List.cons_ne_nil _ _) (List.cons_ne_nil _ _)
      rfl 1 (fun _ => True) (fun env => some env) 100 (fun _ => 0)⟩

/-- When the stacked residual pass succeeds, every registered constraint's
violation evaluates successfully to one of the stacked values. -/
theorem residuals_ok_mem (env : ℕ → ℝ) :
    ∀ (cs : List Constraint) (rs : List ℝ), residuals env cs = .ok rs →
      ∀ c ∈ cs, ∃ v ∈ rs, c.violAt env = .ok v := by
  intro cs
  induction cs with
  | nil =>
    intro rs _ c hc
    exact absurd hc (List.not_mem_nil c)
  | cons c0 cs ih =>
    intro rs h c hc
    cases hv : c0.violAt env with
    | error er =>
      rw [residuals, hv] at h
      exact Except.noConfusion h
    | ok v =>
      cases hrs : residuals env cs with
      | error er =>
        rw [residuals, hv, hrs] at h
        exact Except.noConfusion h
      | ok vs =>
        rw [residuals, hv, hrs] at h
        have hcons : v :: vs = rs := by
          injection h
        subst hcons
        rcases List.mem_cons.mp hc with hceq | hmem
        · subst hceq
          exact ⟨v, List.mem_cons_self _ _, hv⟩
        · obtain ⟨w, hwmem, hw⟩ := ih vs hrs c hmem
          exact ⟨w, List.mem_cons_of_mem _ hwmem, hw⟩

open Classical in
/-- Unfolding of one iteration of the loop when the residual pass
succeeds. -/
theorem iterate_succ_ok (cs : List Constraint) (tol : ℝ)
    (conv : (ℕ → ℝ) → Prop) (step : (ℕ → ℝ) → Option (ℕ → ℝ))
    (fuel : ℕ) (env : ℕ → ℝ) (n : ℕ) (rs : List ℝ)
    (hr : residuals env cs = .ok rs) :
    iterate cs tol conv step (fuel + 1) env n =
      if (∀ r ∈ rs, r ≤ tol) ∧ conv env then ⟨env, .converged, n, none⟩
      else
        match step env with
        | none => ⟨env, .diverged, n, some .lineSearch⟩
        | some env2 => iterate cs tol conv step fuel env2 (n + 1) := by
  rw [iterate, hr]

/-- Unfolding of one iteration of the loop when the residual pass raises a
domain error. -/
theorem iterate_succ_err (cs : List Constraint) (tol : ℝ)
    (conv : (ℕ → ℝ) → Prop) (step : (ℕ → ℝ) → Option (ℕ → ℝ))
    (fuel : ℕ) (env : ℕ → ℝ) (n : ℕ) (er : DomainError)
    (hr : residuals env cs = .error er) :
    iterate cs tol conv step (fuel + 1) env n =
      ⟨env, .diverged, n, some (.domain er)⟩ := by
  rw [iterate, hr]

/-- Claim C3: whenever the modelled solver loop terminates with Converged
status, every constraint registered before the solve evaluates without
domain error at the returned iterate and its canonical residual satisfies
its relation within the feasibility tolerance: max(g, 0) ≤ tol for an
inequality normalized to g(x) ≤ 0, and |h| ≤ tol for an equality
h(x) = 0. -/
theorem converged_implies_feasible (cs : List Constraint) (tol : ℝ)
    (conv : (ℕ → ℝ) → Prop) (step : (ℕ → ℝ) → Option (ℕ → ℝ)) :
    ∀ (fuel : ℕ) (env0 : ℕ → ℝ) (n0 : ℕ) (res : SolveResult),
      iterate cs tol conv step fuel env0 n0 = res →
      res.status = SolveStatus.converged →
      ∀ c ∈ cs, ∃ v, c.violAt res.env = .ok v ∧ v ≤ tol := by
  intro fuel
  induction fuel with
  | zero =>
    intro env0 n0 res hres hst
    rw [iterate] at hres
    subst hres
    exact SolveStatus.noConfusion hst
  | succ fuel ih =>
    intro env0 n0 res hres hst
    cases hr : residuals env0 cs with
    | error er =>
      rw [iterate_succ_err cs tol conv step fuel env0 n0 er hr] at hres
      subst hres
      exact SolveStatus.noConfusion hst
    | ok rs =>
      rw [iterate_succ_ok cs tol conv step fuel env0 n0 rs hr] at hres
      by_cases hcv : (∀ r ∈ rs, r ≤ tol) ∧ conv env0
      · rw [if_pos hcv] at hres
        subst hres
        intro c hc
        obtain ⟨v, hvmem, hv⟩ := residuals_ok_mem env0 cs rs hr c hc
        exact ⟨v, hv, hcv.1 v hvmem⟩
      · rw [if_neg hcv] at hres
        cases hs : step env0 with
        | none =>
          rw [hs] at hres
          subst hres
          exact SolveStatus.noConfusion hst
        | some env2 =>
          rw [hs] at hres
          have hres2 : iterate cs tol conv step fuel env2 (n0 + 1) = res := hres
          exact ih env2 (n0 + 1) res hres2 hst

/-- Claim C3 witness: a one-constraint problem that converges at the
initial point; the returned iterate satisfies the constraint within the
tolerance. -/
theorem converged_implies_feasible_witness :
    iterate [⟨.const 0, Rel.le, .const 0⟩] 1 (fun _ => True)
        (fun env => some env) 1 (fun _ => 0) 0 =
      ⟨fun _ => 0, SolveStatus.converged, 0, none⟩ ∧
    (⟨fun _ => 0, SolveStatus.converged, 0, none⟩ : SolveResult).status =
      SolveStatus.converged ∧
    ∀ c ∈ [(⟨.const 0, Rel.le, .const 0⟩ : Constraint)], ∃ v,
      c.violAt (⟨fun _ => 0, SolveStatus.converged, 0, none⟩ : SolveResult).env
          = .ok v ∧ v ≤ 1 := by
  have hres : iterate [⟨.const 0, Rel.le, .const 0⟩] 1 (fun _ => True)
      (fun env => some env) 1 (fun _ => 0) 0 =
      ⟨fun _ => 0, SolveStatus.converged, 0, none⟩ := by
    have hr : residuals (fun _ => 0) [⟨.const 0, Rel.le, .const 0⟩]
        = .ok [max ((0 : ℝ) - 0) 0] := rfl
    rw [iterate_succ_ok _ _ _ _ _ _ _ _ hr, if_pos]
    refine ⟨?_, trivial⟩
    intro r hr2
    rcases List.mem_singleton.mp hr2 with h
    subst h
    norm_num
  exact ⟨hres, rfl,
    converged_implies_feasible [⟨.const 0, Rel.le, .const 0⟩] 1 (fun _ => True)
      (fun env => some env) 1 (fun _ => 0) 0
      ⟨fun _ => 0, SolveStatus.converged, 0, none⟩ hres rfl⟩

/-- Claim C4: when the trajectory of the modelled solver loop reaches the
iteration ceiling without ever meeting the convergence tolerances (and
with a step accepted at every iteration), the loop terminates with status
MaxIterExceeded and returns the last iterate of the trajectory together
with the iteration-count diagnostic as an ordinary non-converged result -
no exception is raised and the work is not discarded. -/
theorem max_iter_exceeded_returns_last_iterate (cs : List Constraint)
    (tol : ℝ) (conv : (ℕ → ℝ) → Prop) (step : (ℕ → ℝ) → (ℕ → ℝ)) :
    ∀ (fuel : ℕ) (env0 : ℕ → ℝ) (n0 : ℕ),
      (∀ k < fuel, ∃ rs, residuals (step^[k] env0) cs = .ok rs ∧
        ¬((∀ r ∈ rs, r ≤ tol) ∧ conv (step^[k] env0))) →
      iterate cs tol conv (fun env => some (step env)) fuel env0 n0 =
        ⟨step^[fuel] env0, SolveStatus.maxIterExceeded, n0 + fuel, none⟩ := by
  intro fuel
  induction fuel with
  | zero =>
    intro env0 n0 _
    rw [iterate]
    simp
  | succ fuel ih =>
    intro env0 n0 h
    obtain ⟨rs, hrs, hnot⟩ := h 0 (Nat.succ_pos _)
    rw [Function.iterate_zero_apply] at hrs hnot
    rw [iterate_succ_ok _ _ _ _ _ _ _ _ hrs, if_neg hnot]
    have hrest := ih (step env0) (n0 + 1) (fun l hl => by
      have h2 := h (l + 1) (Nat.succ_lt_succ hl)
      rwa [Function.iterate_succ_apply] at h2)
    show iterate cs tol conv (fun env => some (step env)) fuel (step env0)
        (n0 + 1) =
      ⟨step^[fuel + 1] env0, SolveStatus.maxIterExceeded, n0 + (fuel + 1), none⟩
    rw [hrest, Function.iterate_succ_apply]
    have harith : n0 + 1 + fuel = n0 + (fuel + 1) := by omega
    rw [harith]

/-- Claim C4 witness: a concrete infeasible one-constraint problem with
the identity step exhausts a two-iteration budget and returns the last
iterate flagged MaxIterExceeded. -/
theorem max_iter_exceeded_returns_last_iterate_witness :
    (∀ k < 2, ∃ rs,
      residuals (id^[k] (fun _ => (0 : ℝ))) [⟨.const 1, Rel.le, .const 0⟩]
          = .ok rs ∧
      ¬((∀ r ∈ rs, r ≤ (1 : ℝ) / 2) ∧ True)) ∧
    iterate [⟨.const 1, Rel.le, .const 0⟩] ((1 : ℝ) / 2) (fun _ => True)
        (fun env => some (id env)) 2 (fun _ => 0) 0 =
      ⟨id^[2] (fun _ => (0 : ℝ)), SolveStatus.maxIterExceeded, 0 + 2, none⟩ := by
  have h : ∀ k < 2, ∃ rs,
      residuals (id^[k] (fun _ => (0 : ℝ))) [⟨.const 1, Rel.le, .const 0⟩]
          = .ok rs ∧
      ¬((∀ r ∈ rs, r ≤ (1 : ℝ) / 2) ∧ True) := by
    intro l _
    refine ⟨[max ((1 : ℝ) - 0) 0], ?_, ?_⟩
    · rw [Function.iterate_id]
      rfl
    · rintro ⟨hall, -⟩
      have h1 := hall (max ((1 : ℝ) - 0) 0) (List.mem_singleton.mpr rfl)
      rw [max_eq_left (by norm_num : (0 : ℝ) ≤ 1 - 0)] at h1
      norm_num at h1
  exact ⟨h, max_iter_exceeded_returns_last_iterate
    [⟨.const 1, Rel.le, .const 0⟩] ((1 : ℝ) / 2) (fun _ => True) id 2
    (fun _ => 0) 0 h⟩

/-- Claim C6: the domain-error policy. A square root applied to a negative
forward value and a logarithm applied to a non-positive forward value fail
with a DomainError carrying the offending node and its input value rather
than producing a numeric result; and when the residual evaluation of the
registered constraints raises a DomainError during a solver iteration, the
loop terminates immediately with status Diverged carrying that DomainError
as root cause. -/
theorem domain_error_policy :
    (∀ (env : ℕ → ℝ) (a : Expr) (x : ℝ), evalE env a = .ok x → x < 0 →
      evalE env (.un .sqrt a) = .error ⟨.un .sqrt a, x⟩) ∧
    (∀ (env : ℕ → ℝ) (a : Expr) (x : ℝ), evalE env a = .ok x → x ≤ 0 →
      evalE env (.un .log a) = .error ⟨.un .log a, x⟩) ∧
    (∀ (cs : List Constraint) (tol : ℝ) (conv : (ℕ → ℝ) → Prop)
      (step : (ℕ → ℝ) → Option (ℕ → ℝ)) (fuel : ℕ) (env : ℕ → ℝ) (n : ℕ)
      (er : DomainError), residuals env cs = .error er →
      iterate cs tol conv step (fuel + 1) env n =
        ⟨env, SolveStatus.diverged, n, some (.domain er)⟩) := by
  refine ⟨?_, ?_, ?_⟩
  · intro env a x hx hneg
    simp only [evalE, hx]
    rw [if_pos hneg]
  · intro env a x hx hnp
    simp only [evalE, hx]
    rw [if_pos hnp]
  · intro cs tol conv step fuel env n er hr
    exact iterate_succ_err cs tol conv step fuel env n er hr

/-- Claim C6 witness: sqrt of the constant -1 and log of the constant 0
raise the corresponding DomainError, and a solve whose constraint contains
the offending sqrt diverges at once with that error as root cause. -/
theorem domain_error_policy_witness :
    evalE (fun _ => 0) (.const (-1)) = .ok (-1) ∧
    (-1 : ℝ) < 0 ∧
    evalE (fun _ => 0) (.un .sqrt (.const (-1)))
        = .error ⟨.un .sqrt (.const (-1)), -1⟩ ∧
    evalE (fun _ => 0) (.const 0) = .ok 0 ∧
    (0 : ℝ) ≤ 0 ∧
    evalE (fun _ => 0) (.un .log (.const 0))
        = .error ⟨.un .log (.const 0), 0⟩ ∧
    residuals (fun _ => 0) [⟨.un .sqrt (.const (-1)), Rel.le, .const 0⟩]
        = .error ⟨.un .sqrt (.const (-1)), -1⟩ ∧
    iterate [⟨.un .sqrt (.const (-1)), Rel.le, .const 0⟩] 1 (fun _ => True)
        (fun env => some env) 1 (fun _ => 0) 0 =
      ⟨fun _ => 0, SolveStatus.diverged, 0,
        some (.domain ⟨.un .sqrt (.const (-1)), -1⟩)⟩ := by
  have h1 : evalE (fun _ => (0 : ℝ)) (.const (-1)) = .ok (-1) := rfl
  have hneg : (-1 : ℝ) < 0 := neg_one_lt_zero
  have hsqrt := domain_error_policy.1 (fun _ => 0) (.const (-1)) (-1) h1 hneg
  have h2 : evalE (fun _ => (0 : ℝ)) (.const 0) = .ok 0 := rfl
  have hlog := domain_error_policy.2.1 (fun _ => 0) (.const 0) 0 h2 le_rfl
  have hres : residuals (fun _ => 0)
      [⟨.un .sqrt (.const (-1)), Rel.le, .const 0⟩]
      = .error ⟨.un .sqrt (.const (-1)), -1⟩ := by
    have hc : Constraint.violAt ⟨.un .sqrt (.const (-1)), Rel.le, .const 0⟩
        (fun _ => 0) = .error ⟨.un .sqrt (.const (-1)), -1⟩ := by
      rw [Constraint.violAt]
      have he : evalE (fun _ => (0 : ℝ))
          (Constraint.canonical ⟨.un .sqrt (.const (-1)), Rel.le, .const 0⟩)
          = .error ⟨.un .sqrt (.const (-1)), -1⟩ := by
        show evalE (fun _ => (0 : ℝ))
            (.bin .sub (.un .sqrt (.const (-1))) (.const 0)) = _
        simp only [evalE]
        rw [if_pos hneg]
      rw [he]
    rw [residuals, hc]
  have hiter := domain_error_policy.2.2
    [⟨.un .sqrt (.const (-1)), Rel.le, .const 0⟩] 1 (fun _ => True)
    (fun env => some env) 0 (fun _ => 0) 0 ⟨.un .sqrt (.const (-1)), -1⟩ hres
  exact ⟨h1, hneg, hsqrt, h2, le_rfl, hlog, hres, hiter⟩

/-- The modelled loop only ever terminates Converged, Diverged or
MaxIterExceeded: no transition of section 4.4 produces any other flag. -/
theorem iterate_status_lemma (cs : List Constraint) (tol : ℝ)
    (conv : (ℕ → ℝ) → Prop) (step : (ℕ → ℝ) → Option (ℕ → ℝ)) :
    ∀ (fuel : ℕ) (env0 : ℕ → ℝ) (n0 : ℕ),
      (iterate cs tol conv step fuel env0 n0).status = SolveStatus.converged ∨
      (iterate cs tol conv step fuel env0 n0).status = SolveStatus.diverged ∨
      (iterate cs tol conv step fuel env0 n0).status
          = SolveStatus.maxIterExceeded := by
  intro fuel
  induction fuel with
  | zero =>
    intro env0 n0
    right; right; rfl
  | succ fuel ih =>
    intro env0 n0
    cases hr : residuals env0 cs with
    | error er =>
      rw [iterate_succ_err _ _ _ _ _ _ _ _ hr]
      right; left; rfl
    | ok rs =>
      rw [iterate_succ_ok _ _ _ _ _ _ _ _ hr]
      by_cases hcv : (∀ r ∈ rs, r ≤ tol) ∧ conv env0
      · rw [if_pos hcv]
        left; rfl
      · rw [if_neg hcv]
        cases hs : step env0 with
        | none =>
          right; left; rfl
        | some env2 =>
          exact ih env2 (n0 + 1)

/-- Widening the interval of an evaluation certificate. -/
theorem evalIn_weaken {env : ℕ → ℝ} {e : Expr} {lo hi lo' hi' : ℝ}
    (h : EvalIn env e lo hi) (h1 : lo' ≤ lo) (h2 : hi ≤ hi') :
    EvalIn env e lo' hi' := by
  obtain ⟨x, hx, ha, hb⟩ := h
  exact ⟨x, hx, le_trans h1 ha, le_trans hb h2⟩

/-- Certificate for an embedded rational constant. -/
theorem evalIn_constQ (env : ℕ → ℝ) (q : ℚ) (lo hi : ℝ)
    (h1 : lo ≤ (q : ℝ)) (h2 : (q : ℝ) ≤ hi) : EvalIn env (eC q) lo hi :=
  ⟨(q : ℝ), rfl, h1, h2⟩

/-- Certificate for a variable reference. -/
theorem evalIn_var {env : ℕ → ℝ} {i : ℕ} {v : ℝ} (h : env i = v) :
    EvalIn env (.var i) v v :=
  ⟨v, by rw [← h]; rfl, le_refl v, le_refl v⟩

/-- Certificate for the constant pi. -/
theorem evalIn_pi (env : ℕ → ℝ) : EvalIn env .pi 3 4 :=
  ⟨Real.pi, rfl, le_of_lt Real.pi_gt_three, Real.pi_le_four⟩

/-- Certificate for an addition node. -/
theorem evalIn_add {env : ℕ → ℝ} {a b : Expr} {la ha lb hb : ℝ}
    (h1 : EvalIn env a la ha) (h2 : EvalIn env b lb hb) :
    EvalIn env (.bin .add a b) (la + lb) (ha + hb) := by
  obtain ⟨x, hx, hxl, hxh⟩ := h1
  obtain ⟨y, hy, hyl, hyh⟩ := h2
  exact ⟨x + y, by simp only [evalE, hx, hy], add_le_add hxl hyl,
    add_le_add hxh hyh⟩

/-- Certificate for a subtraction node. -/
theorem evalIn_sub {env : ℕ → ℝ} {a b : Expr} {la ha lb hb : ℝ}
    (h1 : EvalIn env a la ha) (h2 : EvalIn env b lb hb) :
    EvalIn env (.bin .sub a b) (la - hb) (ha - lb) := by
  obtain ⟨x, hx, hxl, hxh⟩ := h1
  obtain ⟨y, hy, hyl, hyh⟩ := h2
  exact ⟨x - y, by simp only [evalE, hx, hy], by linarith, by linarith⟩

/-- Certificate for a multiplication node with nonnegative factors. -/
theorem evalIn_mul {env : ℕ → ℝ} {a b : Expr} {la ha lb hb : ℝ}
    (h1 : EvalIn env a la ha) (h2 : EvalIn env b lb hb)
    (hla : 0 ≤ la) (hlb : 0 ≤ lb) :
    EvalIn env (.bin .mul a b) (la * lb) (ha * hb) := by
  obtain ⟨x, hx, hxl, hxh⟩ := h1
  obtain ⟨y, hy, hyl, hyh⟩ := h2
  have hx0 : 0 ≤ x := le_trans hla hxl
  have hy0 : 0 ≤ y := le_trans hlb hyl
  exact ⟨x * y, by simp only [evalE, hx, hy],
    mul_le_mul hxl hyl hlb hx0,
    mul_le_mul hxh hyh hy0 (le_trans hx0 hxh)⟩

/-- Certificate for a division node with a nonnegative numerator and a
positive denominator; the division cannot raise the division-by-zero
domain error. -/
theorem evalIn_div {env : ℕ → ℝ} {a b : Expr} {la ha lb hb : ℝ}
    (h1 : EvalIn env a la ha) (h2 : EvalIn env b lb hb)
    (hla : 0 ≤ la) (hlb : 0 < lb) :
    EvalIn env (.bin .div a b) (la / hb) (ha / lb) := by
  obtain ⟨x, hx, hxl, hxh⟩ := h1
  obtain ⟨y, hy, hyl, hyh⟩ := h2
  have hx0 : 0 ≤ x := le_trans hla hxl
  have hy0 : 0 < y := lt_of_lt_of_le hlb hyl
  refine ⟨x / y, ?_, ?_, ?_⟩
  · simp only [evalE, hx, hy]
    rw [if_neg hy0.ne']
  · exact div_le_div₀ hx0 hxl hy0 hyh
  · exact div_le_div₀ (le_trans hx0 hxh) hxh hlb hyl

/-- Certificate for a square-root node with a provably nonnegative
argument; the square root cannot raise the negative-argument domain
error. -/
theorem evalIn_sqrt {env : ℕ → ℝ} {a : Expr} {la ha m M : ℝ}
    (h : EvalIn env a la ha) (hm : 0 ≤ m) (hml : m * m ≤ la)
    (hM : 0 ≤ M) (hMu : ha ≤ M * M) :
    EvalIn env (.un .sqrt a) m M := by
  obtain ⟨x, hx, hxl, hxh⟩ := h
  have hx0 : 0 ≤ x := le_trans (le_trans (mul_nonneg hm hm) hml) hxl
  refine ⟨Real.sqrt x, ?_, ?_, ?_⟩
  · simp only [evalE, hx]
    rw [if_neg (not_lt.mpr hx0)]
  · calc m = Real.sqrt (m * m) := (Real.sqrt_mul_self hm).symm
      _ ≤ Real.sqrt x := Real.sqrt_le_sqrt (le_trans hml hxl)
  · calc Real.sqrt x ≤ Real.sqrt (M * M) :=
        Real.sqrt_le_sqrt (le_trans hxh hMu)
      _ = M := Real.sqrt_mul_self hM

/-- Certificate for a square node with a nonnegative base. -/
theorem evalIn_pow2 {env : ℕ → ℝ} {a : Expr} {la ha : ℝ}
    (h : EvalIn env a la ha) (hla : 0 ≤ la) :
    EvalIn env (.powN a 2) (la * la) (ha * ha) := by
  obtain ⟨x, hx, hxl, hxh⟩ := h
  have hx0 : 0 ≤ x := le_trans hla hxl
  refine ⟨x ^ 2, by simp only [evalE, hx], ?_, ?_⟩
  · rw [pow_two]
    exact mul_le_mul hxl hxl hla hx0
  · rw [pow_two]
    exact mul_le_mul hxh hxh hx0 (le_trans hx0 hxh)

/-- Certificate for a rational-power node with base at least 1 and
exponent between 0 and 2; the power cannot raise the negative-base domain
error, and the crude bracket 1 ≤ base ^ q ≤ hi * hi suffices here. -/
theorem evalIn_powQ {env : ℕ → ℝ} {a : Expr} {la ha : ℝ} (q : ℚ)
    (h : EvalIn env a la ha) (hla : 1 ≤ la)
    (hq0 : 0 ≤ (q : ℝ)) (hq2 : (q : ℝ) ≤ 2) :
    EvalIn env (.powQ a q) 1 (ha * ha) := by
  obtain ⟨x, hx, hxl, hxh⟩ := h
  have hx1 : 1 ≤ x := le_trans hla hxl
  have hx0 : 0 ≤ x := le_trans zero_le_one hx1
  refine ⟨x ^ (q : ℝ), ?_, ?_, ?_⟩
  · simp only [evalE, hx]
    rw [if_neg (not_lt.mpr hx0), if_neg ?_]
    rintro ⟨h0, -⟩
    rw [h0] at hx1
    exact absurd hx1 (by norm_num)
  · calc (1 : ℝ) = x ^ (0 : ℝ) := (Real.rpow_zero x).symm
      _ ≤ x ^ (q : ℝ) := Real.rpow_le_rpow_of_exponent_le hx1 hq0
  · calc x ^ (q : ℝ) ≤ x ^ (2 : ℝ) :=
        Real.rpow_le_rpow_of_exponent_le hx1 hq2
      _ = x ^ 2 := Real.rpow_two x
      _ = x * x := pow_two x
      _ ≤ ha * ha := mul_le_mul hxh hxh hx0 (le_trans hx0 hxh)

/-- An inequality constraint whose canonical residual is certified to stay
at most `tol` evaluates to a violation of at most `tol`. -/
theorem violAt_ineq_le {c : Constraint} {env : ℕ → ℝ} {lo hi tol : ℝ}
    (heq : c.isEquality = false) (h : EvalIn env c.canonical lo hi)
    (hhi : hi ≤ tol) (htol : 0 ≤ tol) :
    ∃ v, c.violAt env = .ok v ∧ v ≤ tol := by
  obtain ⟨x, hx, -, hxh⟩ := h
  refine ⟨max x 0, ?_, max_le (le_trans hxh hhi) htol⟩
  simp only [Constraint.violAt, hx, heq, Bool.false_eq_true, if_false]

/-- When every registered constraint's violation is certified to be at
most `tol`, the stacked residual pass succeeds and all stacked values are
at most `tol`. -/
theorem residuals_ok_of_forall (env : ℕ → ℝ) (tol : ℝ) :
    ∀ cs : List Constraint,
      (∀ c ∈ cs, ∃ v, c.violAt env = .ok v ∧ v ≤ tol) →
      ∃ rs, residuals env cs = .ok rs ∧ ∀ r ∈ rs, r ≤ tol := by
  intro cs
  induction cs with
  | nil =>
    intro _
    exact ⟨[], rfl, fun r hr => absurd hr (List.not_mem_nil r)⟩
  | cons c0 cs ih =>
    intro h
    obtain ⟨v, hv, hvle⟩ := h c0 (List.mem_cons_self _ _)
    obtain ⟨rs, hrs, hall⟩ := ih (fun c hc => h c (List.mem_cons_of_mem _ hc))
    refine ⟨v :: rs, ?_, ?_⟩
    · rw [residuals, hv, hrs]
    · intro r hr
      rcases List.mem_cons.mp hr with h1 | h1
      · subst h1
        exact hvle
      · exact hall r h1

/-- At the V=10000 initial guesses discussed in cell 18, every constraint
of the embedded SimPleAC problem evaluates without domain error (all
square-root arguments, power bases and denominators are certified
positive) and its violation is at most the loose tolerance 100000000. -/
theorem simpleac_v10000_start_feasible_loose :
    ∀ c ∈ simpleacConstraints, ∃ v,
      c.violAt simpleacInitGuessV10000 = .ok v ∧ v ≤ (100000000 : ℝ) := by
  have hV : EvalIn simpleacInitGuessV10000 vV 10000 10000 := evalIn_var rfl
  have hW : EvalIn simpleacInitGuessV10000 vW 10000 10000 := evalIn_var rfl
  have hCL : EvalIn simpleacInitGuessV10000 vCL (3/5) (3/5) := evalIn_var rfl
  have hWf : EvalIn simpleacInitGuessV10000 vWf 2000 2000 := evalIn_var rfl
  have hA : EvalIn simpleacInitGuessV10000 vA 15 15 := evalIn_var rfl
  have hS : EvalIn simpleacInitGuessV10000 vS 30 30 := evalIn_var rfl
  have hVff : EvalIn simpleacInitGuessV10000 vVfFuse (1/2) (1/2) :=
    evalIn_var rfl
  have h1 : EvalIn simpleacInitGuessV10000 wWsurf 0 1800 :=
    evalIn_weaken (evalIn_mul (evalIn_constQ _ W_W_coeff2 0 60
      (by norm_num [W_W_coeff2]) (by norm_num [W_W_coeff2])) hS
      (by norm_num) (by norm_num)) (by norm_num) (by norm_num)
  have h2 : EvalIn simpleacInitGuessV10000
      (eDiv (eC W_W_coeff1) (eC tau)) 0 (1/5000) :=
    evalIn_weaken (evalIn_div (evalIn_constQ _ W_W_coeff1 0 (2/100000)
      (by norm_num [W_W_coeff1]) (by norm_num [W_W_coeff1]))
      (evalIn_constQ _ tau (12/100) (12/100) (by norm_num [tau])
        (by norm_num [tau])) (by norm_num) (by norm_num))
      (by norm_num) (by norm_num)
  have h3 : EvalIn simpleacInitGuessV10000
      (eMul (eDiv (eC W_W_coeff1) (eC tau)) (eC N_ult)) 0 (1/1000) :=
    evalIn_weaken (evalIn_mul h2 (evalIn_constQ _ N_ult 0 (33/10)
      (by norm_num [N_ult]) (by norm_num [N_ult])) (by norm_num)
      (by norm_num)) (by norm_num) (by norm_num)
  have h4 : EvalIn simpleacInitGuessV10000 (.powQ vA (3/2)) 1 225 :=
    evalIn_weaken (evalIn_powQ (3/2) hA (by norm_num) (by norm_num)
      (by norm_num)) (by norm_num) (by norm_num)
  have h5 : EvalIn simpleacInitGuessV10000
      (eMul (eMul (eDiv (eC W_W_coeff1) (eC tau)) (eC N_ult))
        (.powQ vA (3/2))) 0 (1/4) :=
    evalIn_weaken (evalIn_mul h3 h4 (by norm_num) (by norm_num))
      (by norm_num) (by norm_num)
  have h6 : EvalIn simpleacInitGuessV10000 (eMul vVfFuse (eC g)) 0 5 :=
    evalIn_weaken (evalIn_mul hVff (evalIn_constQ _ g 0 (981/100)
      (by norm_num [g]) (by norm_num [g])) (by norm_num) (by norm_num))
      (by norm_num) (by norm_num)
  have h7 : EvalIn simpleacInitGuessV10000
      (eMul (eMul vVfFuse (eC g)) (eC rho_f)) 0 4100 :=
    evalIn_weaken (evalIn_mul h6 (evalIn_constQ _ rho_f 0 817
      (by norm_num [rho_f]) (by norm_num [rho_f])) (by norm_num)
      (by norm_num)) (by norm_num) (by norm_num)
  have h8 : EvalIn simpleacInitGuessV10000
      (eAdd (eC W_0) (eMul (eMul vVfFuse (eC g)) (eC rho_f)))
      6250 10350 :=
    evalIn_weaken (evalIn_add (evalIn_constQ _ W_0 6250 6250
      (by norm_num [W_0]) (by norm_num [W_0])) h7) (by norm_num)
      (by norm_num)
  have h9 : EvalIn simpleacInitGuessV10000
      (eMul (eAdd (eC W_0) (eMul (eMul vVfFuse (eC g)) (eC rho_f))) vW)
      0 110000000 :=
    evalIn_weaken (evalIn_mul h8 hW (by norm_num) (by norm_num))
      (by norm_num) (by norm_num)
  have h10 : EvalIn simpleacInitGuessV10000
      (eMul (eMul (eAdd (eC W_0) (eMul (eMul vVfFuse (eC g)) (eC rho_f)))
        vW) vS) 0 3300000000 :=
    evalIn_weaken (evalIn_mul h9 hS (by norm_num) (by norm_num))
      (by norm_num) (by norm_num)
  have h11 : EvalIn simpleacInitGuessV10000
      (eSqrt (eMul (eMul (eAdd (eC W_0)
        (eMul (eMul vVfFuse (eC g)) (eC rho_f))) vW) vS)) 0 60000 :=
    evalIn_sqrt h10 (by norm_num) (by norm_num) (by norm_num) (by norm_num)
  have h12 : EvalIn simpleacInitGuessV10000 wWstrc 0 15000 :=
    evalIn_weaken (evalIn_mul h5 h11 (by norm_num) (by norm_num))
      (by norm_num) (by norm_num)
  have hwW : EvalIn simpleacInitGuessV10000 wW 0 16800 :=
    evalIn_weaken (evalIn_add h1 h12) (by norm_num) (by norm_num)
  have hc0 : EvalIn simpleacInitGuessV10000 (.bin .sub (eC 0) vW)
      (-10000) 0 :=
    evalIn_weaken (evalIn_sub (evalIn_constQ _ 0 0 0 (by norm_num)
      (by norm_num)) hW) (by norm_num) (by norm_num)
  have hc1 : EvalIn simpleacInitGuessV10000 (.bin .sub (eC 0) vWf)
      (-2000) 0 :=
    evalIn_weaken (evalIn_sub (evalIn_constQ _ 0 0 0 (by norm_num)
      (by norm_num)) hWf) (by norm_num) (by norm_num)
  have hc2 : EvalIn simpleacInitGuessV10000 (.bin .sub (eC 0) vVfFuse)
      (-1) 0 :=
    evalIn_weaken (evalIn_sub (evalIn_constQ _ 0 0 0 (by norm_num)
      (by norm_num)) hVff) (by norm_num) (by norm_num)
  have h13 : EvalIn simpleacInitGuessV10000 (eAdd (eC W_0) wW)
      6250 23050 :=
    evalIn_weaken (evalIn_add (evalIn_constQ _ W_0 6250 6250
      (by norm_num [W_0]) (by norm_num [W_0])) hwW) (by norm_num)
      (by norm_num)
  have h14 : EvalIn simpleacInitGuessV10000 (eAdd (eAdd (eC W_0) wW) vWf)
      8250 25050 :=
    evalIn_weaken (evalIn_add h13 hWf) (by norm_num) (by norm_num)
  have hc3 : EvalIn simpleacInitGuessV10000
      (.bin .sub (eAdd (eAdd (eC W_0) wW) vWf) vW) (-10000) 20000 :=
    evalIn_weaken (evalIn_sub h14 hW) (by norm_num) (by norm_num)
  have h15 : EvalIn simpleacInitGuessV10000 (eMul (eC (1/2)) vWf)
      0 1000 :=
    evalIn_weaken (evalIn_mul (evalIn_constQ _ (1/2) 0 (1/2)
      (by norm_num) (by norm_num)) hWf (by norm_num) (by norm_num))
      (by norm_num) (by norm_num)
  have h16 : EvalIn simpleacInitGuessV10000
      (eAdd (eAdd (eC W_0) wW) (eMul (eC (1/2)) vWf)) 6250 24050 :=
    evalIn_weaken (evalIn_add h13 h15) (by norm_num) (by norm_num)
  have h17 : EvalIn simpleacInitGuessV10000 (eMul (eC (1/2)) (eC rho))
      0 1 :=
    evalIn_weaken (evalIn_mul (evalIn_constQ _ (1/2) 0 (1/2)
      (by norm_num) (by norm_num)) (evalIn_constQ _ rho 0 (123/100)
      (by norm_num [rho]) (by norm_num [rho])) (by norm_num)
      (by norm_num)) (by norm_num) (by norm_num)
  have h18 : EvalIn simpleacInitGuessV10000
      (eMul (eMul (eC (1/2)) (eC rho)) vS) 0 30 :=
    evalIn_weaken (evalIn_mul h17 hS (by norm_num) (by norm_num))
      (by norm_num) (by norm_num)
  have h19 : EvalIn simpleacInitGuessV10000
      (eMul (eMul (eMul (eC (1/2)) (eC rho)) vS) vCL) 0 18 :=
    evalIn_weaken (evalIn_mul h18 hCL (by norm_num) (by norm_num))
      (by norm_num) (by norm_num)
  have h20 : EvalIn simpleacInitGuessV10000 (.powN vV 2) 0 100000000 :=
    evalIn_weaken (evalIn_pow2 hV (by norm_num)) (by norm_num)
      (by norm_num)
  have h21 : EvalIn simpleacInitGuessV10000
      (eMul (eMul (eMul (eMul (eC (1/2)) (eC rho)) vS) vCL)
        (.powN vV 2)) 0 2000000000 :=
    evalIn_weaken (evalIn_mul h19 h20 (by norm_num) (by norm_num))
      (by norm_num) (by norm_num)
  have hc4 : EvalIn simpleacInitGuessV10000
      (.bin .sub (eAdd (eAdd (eC W_0) wW) (eMul (eC (1/2)) vWf))
        (eMul (eMul (eMul (eMul (eC (1/2)) (eC rho)) vS) vCL)
          (.powN vV 2))) (-2000000000) 24050 :=
    evalIn_weaken (evalIn_sub h16 h21) (by norm_num) (by norm_num)
  have h22 : EvalIn simpleacInitGuessV10000
      (eMul (eMul (eMul (eC (1/2)) (eC rho)) vS) (eC C_Lmax)) 0 48 :=
    evalIn_weaken (evalIn_mul h18 (evalIn_constQ _ C_Lmax 0 (16/10)
      (by norm_num [C_Lmax]) (by norm_num [C_Lmax])) (by norm_num)
      (by norm_num)) (by norm_num) (by norm_num)
  have h23 : EvalIn simpleacInitGuessV10000 (.powN (eC V_min) 2) 0 625 :=
    evalIn_weaken (evalIn_pow2 (evalIn_constQ _ V_min 0 25
      (by norm_num [V_min]) (by norm_num [V_min])) (by norm_num))
      (by norm_num) (by norm_num)
  have h24 : EvalIn simpleacInitGuessV10000
      (eMul (eMul (eMul (eMul (eC (1/2)) (eC rho)) vS) (eC C_Lmax))
        (.powN (eC V_min) 2)) 0 30000 :=
    evalIn_weaken (evalIn_mul h22 h23 (by norm_num) (by norm_num))
      (by norm_num) (by norm_num)
  have hc5 : EvalIn simpleacInitGuessV10000
      (.bin .sub vW (eMul (eMul (eMul (eMul (eC (1/2)) (eC rho)) vS)
        (eC C_Lmax)) (.powN (eC V_min) 2))) (-30000) 10000 :=
    evalIn_weaken (evalIn_sub hW h24) (by norm_num) (by norm_num)
  have h25 : EvalIn simpleacInitGuessV10000 tFlight 0 100 :=
    evalIn_weaken (evalIn_div (evalIn_constQ _ Range 0 1000000
      (by norm_num [Range]) (by norm_num [Range])) hV (by norm_num)
      (by norm_num)) (by norm_num) (by norm_num)
  have h26 : EvalIn simpleacInitGuessV10000 (eMul (eC TSFC) tFlight)
      0 (1/50) :=
    evalIn_weaken (evalIn_mul (evalIn_constQ _ TSFC 0 (1/5000)
      (by norm_num [TSFC]) (by norm_num [TSFC])) h25 (by norm_num)
      (by norm_num)) (by norm_num) (by norm_num)
  have h27 : EvalIn simpleacInitGuessV10000 cda0 0 (1/10) :=
    evalIn_weaken (evalIn_div hVff (evalIn_constQ _ 10 10 10
      (by norm_num) (by norm_num)) (by norm_num) (by norm_num))
      (by norm_num) (by norm_num)
  have h28 : EvalIn simpleacInitGuessV10000 (eDiv cda0 vS) 0 (1/100) :=
    evalIn_weaken (evalIn_div h27 hS (by norm_num) (by norm_num))
      (by norm_num) (by norm_num)
  have h29 : EvalIn simpleacInitGuessV10000 (eDiv (eC rho) (eC mu))
      60000 70000 :=
    evalIn_weaken (evalIn_div (evalIn_constQ _ rho (123/100) (123/100)
      (by norm_num [rho]) (by norm_num [rho]))
      (evalIn_constQ _ mu (1775/100000000) (1775/100000000)
        (by norm_num [mu]) (by norm_num [mu])) (by norm_num)
      (by norm_num)) (by norm_num) (by norm_num)
  have h30 : EvalIn simpleacInitGuessV10000
      (eMul (eDiv (eC rho) (eC mu)) vV) 600000000 700000000 :=
    evalIn_weaken (evalIn_mul h29 hV (by norm_num) (by norm_num))
      (by norm_num) (by norm_num)
  have h31 : EvalIn simpleacInitGuessV10000 (eDiv vS vA) 1 2 :=
    evalIn_weaken (evalIn_div hS hA (by norm_num) (by norm_num))
      (by norm_num) (by norm_num)
  have h32 : EvalIn simpleacInitGuessV10000 (.powQ (eDiv vS vA) (1/2))
      1 4 :=
    evalIn_weaken (evalIn_powQ (1/2) h31 (by norm_num) (by norm_num)
      (by norm_num)) (by norm_num) (by norm_num)
  have h33 : EvalIn simpleacInitGuessV10000 reynolds 1 3000000000 :=
    evalIn_weaken (evalIn_mul h30 h32 (by norm_num) (by norm_num))
      (by norm_num) (by norm_num)
  have h34 : EvalIn simpleacInitGuessV10000 (.powQ reynolds (1/5))
      1 9000000000000000000 :=
    evalIn_weaken (evalIn_powQ (1/5) h33 (by norm_num) (by norm_num)
      (by norm_num)) (by norm_num) (by norm_num)
  have h35 : EvalIn simpleacInitGuessV10000 cF 0 (74/1000) :=
    evalIn_weaken (evalIn_div (evalIn_constQ _ (74/1000) 0 (74/1000)
      (by norm_num) (by norm_num)) h34 (by norm_num) (by norm_num))
      (by norm_num) (by norm_num)
  have h36 : EvalIn simpleacInitGuessV10000 (eMul (eC k) cF) 0 (1/10) :=
    evalIn_weaken (evalIn_mul (evalIn_constQ _ k 0 (117/100)
      (by norm_num [k]) (by norm_num [k])) h35 (by norm_num)
      (by norm_num)) (by norm_num) (by norm_num)
  have h37 : EvalIn simpleacInitGuessV10000
      (eMul (eMul (eC k) cF) (eC S_wet_over_S)) 0 (1/4) :=
    evalIn_weaken (evalIn_mul h36 (evalIn_constQ _ S_wet_over_S 0
      (2075/1000) (by norm_num [S_wet_over_S])
      (by norm_num [S_wet_over_S])) (by norm_num) (by norm_num))
      (by norm_num) (by norm_num)
  have h38 : EvalIn simpleacInitGuessV10000 (.powN vCL 2) 0 1 :=
    evalIn_weaken (evalIn_pow2 hCL (by norm_num)) (by norm_num)
      (by norm_num)
  have h39 : EvalIn simpleacInitGuessV10000 (eMul Expr.pi vA) 45 60 :=
    evalIn_weaken (evalIn_mul (evalIn_pi _) hA (by norm_num)
      (by norm_num)) (by norm_num) (by norm_num)
  have h40 : EvalIn simpleacInitGuessV10000
      (eMul (eMul Expr.pi vA) (eC e)) 40 60 :=
    evalIn_weaken (evalIn_mul h39 (evalIn_constQ _ e (92/100) (92/100)
      (by norm_num [e]) (by norm_num [e])) (by norm_num) (by norm_num))
      (by norm_num) (by norm_num)
  have h41 : EvalIn simpleacInitGuessV10000
      (eDiv (.powN vCL 2) (eMul (eMul Expr.pi vA) (eC e))) 0 (1/10) :=
    evalIn_weaken (evalIn_div h38 h40 (by norm_num) (by norm_num))
      (by norm_num) (by norm_num)
  have h42 : EvalIn simpleacInitGuessV10000 cD 0 (1/2) :=
    evalIn_weaken (evalIn_add (evalIn_add h28 h37) h41) (by norm_num)
      (by norm_num)
  have h43 : EvalIn simpleacInitGuessV10000
      (eMul (eMul (eMul (eC (1/2)) (eC rho)) vS) cD) 0 15 :=
    evalIn_weaken (evalIn_mul h18 h42 (by norm_num) (by norm_num))
      (by norm_num) (by norm_num)
  have h44 : EvalIn simpleacInitGuessV10000 dragD 0 1500000000 :=
    evalIn_weaken (evalIn_mul h43 h20 (by norm_num) (by norm_num))
      (by norm_num) (by norm_num)
  have h45 : EvalIn simpleacInitGuessV10000
      (eMul (eMul (eC TSFC) tFlight) dragD) 0 30000000 :=
    evalIn_weaken (evalIn_mul h26 h44 (by norm_num) (by norm_num))
      (by norm_num) (by norm_num)
  have hc6 : EvalIn simpleacInitGuessV10000
      (.bin .sub (eMul (eMul (eC TSFC) tFlight) dragD) vWf)
      (-2000) 30000000 :=
    evalIn_weaken (evalIn_sub h45 hWf) (by norm_num) (by norm_num)
  have h46 : EvalIn simpleacInitGuessV10000 (eDiv vWf (eC g)) 0 210 :=
    evalIn_weaken (evalIn_div hWf (evalIn_constQ _ g (981/100) (981/100)
      (by norm_num [g]) (by norm_num [g])) (by norm_num) (by norm_num))
      (by norm_num) (by norm_num)
  have h47 : EvalIn simpleacInitGuessV10000 vF 0 1 :=
    evalIn_weaken (evalIn_div h46 (evalIn_constQ _ rho_f 817 817
      (by norm_num [rho_f]) (by norm_num [rho_f])) (by norm_num)
      (by norm_num)) (by norm_num) (by norm_num)
  have h48 : EvalIn simpleacInitGuessV10000 (.powQ vS (3/2)) 1 900 :=
    evalIn_weaken (evalIn_powQ (3/2) hS (by norm_num) (by norm_num)
      (by norm_num)) (by norm_num) (by norm_num)
  have h49 : EvalIn simpleacInitGuessV10000
      (eMul (eC (3/100)) (.powQ vS (3/2))) 0 27 :=
    evalIn_weaken (evalIn_mul (evalIn_constQ _ (3/100) 0 (3/100)
      (by norm_num) (by norm_num)) h48 (by norm_num) (by norm_num))
      (by norm_num) (by norm_num)
  have h50 : EvalIn simpleacInitGuessV10000 (.powQ vA (1/2)) 1 225 :=
    evalIn_weaken (evalIn_powQ (1/2) hA (by norm_num) (by norm_num)
      (by norm_num)) (by norm_num) (by norm_num)
  have h51 : EvalIn simpleacInitGuessV10000
      (eDiv (eMul (eC (3/100)) (.powQ vS (3/2))) (.powQ vA (1/2)))
      0 27 :=
    evalIn_weaken (evalIn_div h49 h50 (by norm_num) (by norm_num))
      (by norm_num) (by norm_num)
  have h52 : EvalIn simpleacInitGuessV10000 vFwing 0 4 :=
    evalIn_weaken (evalIn_mul h51 (evalIn_constQ _ tau 0 (12/100)
      (by norm_num [tau]) (by norm_num [tau])) (by norm_num)
      (by norm_num)) (by norm_num) (by norm_num)
  have h53 : EvalIn simpleacInitGuessV10000 vFavail 0 5 :=
    evalIn_weaken (evalIn_add h52 hVff) (by norm_num) (by norm_num)
  have hc7 : EvalIn simpleacInitGuessV10000 (.bin .sub vF vFavail)
      (-5) 1 :=
    evalIn_weaken (evalIn_sub h47 h53) (by norm_num) (by norm_num)
  intro c hc
  simp only [simpleacConstraints, List.mem_cons, List.not_mem_nil,
    or_false] at hc
  rcases hc with rfl | rfl | rfl | rfl | rfl | rfl | rfl | rfl
  · exact violAt_ineq_le rfl hc0 (by norm_num) (by norm_num)
  · exact violAt_ineq_le rfl hc1 (by norm_num) (by norm_num)
  · exact violAt_ineq_le rfl hc2 (by norm_num) (by norm_num)
  · exact violAt_ineq_le rfl hc3 (by norm_num) (by norm_num)
  · exact violAt_ineq_le rfl hc4 (by norm_num) (by norm_num)
  · exact violAt_ineq_le rfl hc5 (by norm_num) (by norm_num)
  · exact violAt_ineq_le rfl hc6 (by norm_num) (by norm_num)
  · exact violAt_ineq_le rfl hc7 (by norm_num) (by norm_num)

/-- Claim C7 counterexample: in the modelled solver, whose step rule,
auxiliary convergence checks and tolerances the specification leaves open
(section 9), the SimPleAC solve with initial guess V=10000 admits a run
that is returned flagged Converged - with the loose feasibility tolerance
100000000 and trivial auxiliary checks, the initial point itself passes
the convergence test, every constraint evaluating without domain error -
so the run neither terminates Diverged nor MaxIterExceeded, contradicting
both parts of the claim as stated. -/
theorem simpleac_v10000_converged_run :
    (iterate simpleacConstraints (100000000 : ℝ) (fun _ => True)
        (fun env => some env) 1 simpleacInitGuessV10000 0).status
      = SolveStatus.converged ∧
    ¬((iterate simpleacConstraints (100000000 : ℝ) (fun _ => True)
        (fun env => some env) 1 simpleacInitGuessV10000 0).status
          = SolveStatus.diverged ∨
      (iterate simpleacConstraints (100000000 : ℝ) (fun _ => True)
        (fun env => some env) 1 simpleacInitGuessV10000 0).status
          = SolveStatus.maxIterExceeded) := by
  obtain ⟨rs, hrs, hall⟩ := residuals_ok_of_forall simpleacInitGuessV10000
    (100000000 : ℝ) simpleacConstraints simpleac_v10000_start_feasible_loose
  have hst : (iterate simpleacConstraints (100000000 : ℝ) (fun _ => True)
      (fun env => some env) 1 simpleacInitGuessV10000 0).status
      = SolveStatus.converged := by
    rw [iterate_succ_ok _ _ _ _ _ _ _ _ hrs, if_pos ⟨hall, trivial⟩]
  refine ⟨hst, ?_⟩
  rw [hst]
  rintro (hc | hc) <;> exact SolveStatus.noConfusion hc

/-- Claim C7 (amended): for the embedded SimPleAC problem solved from the
guesses with V changed to 10000 (cell-18 records that this guess does not
converge in the real solver), every run of the modelled solver loop that
does not terminate Converged terminates with status Diverged or
MaxIterExceeded; the loop can return no other flag, so a non-converging
run is never silently flagged Converged. The unconditional form of the
claim fails in the model, whose step rule and tolerances the
specification leaves open. -/
theorem simpleac_v10000_no_silent_convergence (tol : ℝ)
    (conv : (ℕ → ℝ) → Prop) (step : (ℕ → ℝ) → Option (ℕ → ℝ))
    (fuel : ℕ) (n0 : ℕ)
    (h : (iterate simpleacConstraints tol conv step fuel
        simpleacInitGuessV10000 n0).status ≠ SolveStatus.converged) :
    (iterate simpleacConstraints tol conv step fuel simpleacInitGuessV10000
        n0).status = SolveStatus.diverged ∨
    (iterate simpleacConstraints tol conv step fuel simpleacInitGuessV10000
        n0).status = SolveStatus.maxIterExceeded := by
  rcases iterate_status_lemma simpleacConstraints tol conv step fuel
      simpleacInitGuessV10000 n0 with h1 | h1 | h1
  · exact absurd h1 h
  · exact Or.inl h1
  · exact Or.inr h1

/-- Claim C7 witness: a run of the embedded V=10000 problem with an empty
iteration budget does not converge, and its status is indeed
MaxIterExceeded. -/
theorem simpleac_v10000_no_silent_convergence_witness :
    (iterate simpleacConstraints 1 (fun _ => True) (fun _ => none) 0
        simpleacInitGuessV10000 0).status ≠ SolveStatus.converged ∧
    ((iterate simpleacConstraints 1 (fun _ => True) (fun _ => none) 0
        simpleacInitGuessV10000 0).status = SolveStatus.diverged ∨
      (iterate simpleacConstraints 1 (fun _ => True) (fun _ => none) 0
        simpleacInitGuessV10000 0).status = SolveStatus.maxIterExceeded) := by
  have hne : (iterate simpleacConstraints 1 (fun _ => True) (fun _ => none) 0
      simpleacInitGuessV10000 0).status ≠ SolveStatus.converged := by
    intro hc
    exact SolveStatus.noConfusion hc
  exact ⟨hne, simpleac_v10000_no_silent_convergence 1 (fun _ => True)
    (fun _ => none) 0 0 hne⟩

/-- The memo table built by `memoPass` has one entry per processed
node. -/
theorem memoPass_len (gr : List DagNode) (env : ℕ → ℝ) :
    ∀ n, (memoPass gr env n).1.length = n := by
  intro n
  induction n with
  | zero => rfl
  | succ n ih => simp [memoPass, ih]

/-- The memoized pass performs exactly one `memoEntry` computation per
processed node. -/
theorem memoPass_count (gr : List DagNode) (env : ℕ → ℝ) :
    ∀ n, (memoPass gr env n).2 = n := by
  intro n
  induction n with
  | zero => rfl
  | succ n ih => simp [memoPass, ih]

/-- The memoized computation of node `i` from a table that is correct on
all earlier nodes agrees with naive recursive evaluation of node `i`. -/
theorem memoEntry_eq_naive (gr : List DagNode) (env : ℕ → ℝ)
    (t : List (Except DagError ℝ)) (i : ℕ) (hlen : t.length = i)
    (ht : ∀ j, j < i → t[j]? = some (naiveEval gr env j)) :
    memoEntry gr env t i = naiveEval gr env i := by
  rw [memoEntry, naiveEval]
  cases hg : gr[i]? with
  | none => rfl
  | some nd =>
    show nodeEval env i nd (fun j => (t[j]?).getD (.error ⟨j, 0⟩))
        = nodeEval env i nd
          (fun j => if _ : j < i then naiveEval gr env j else .error ⟨j, 0⟩)
    congr 1
    funext j
    by_cases hj : j < i
    · rw [ht j hj, Option.getD_some, dif_pos hj]
    · rw [dif_neg hj, List.getElem?_eq_none (by omega), Option.getD_none]

/-- Every entry of the memo table agrees with naive evaluation. -/
theorem memoPass_correct (gr : List DagNode) (env : ℕ → ℝ) :
    ∀ n, ∀ i, i < n →
      ((memoPass gr env n).1)[i]? = some (naiveEval gr env i) := by
  intro n
  induction n with
  | zero =>
    intro i hi
    exact absurd hi (Nat.not_lt_zero i)
  | succ n ih =>
    intro i hi
    show ((memoPass gr env n).1
        ++ [memoEntry gr env (memoPass gr env n).1 n])[i]? = _
    rcases Nat.lt_succ_iff_lt_or_eq.mp hi with hlt | heq
    · rw [List.getElem?_append_left (by rw [memoPass_len]; exact hlt)]
      exact ih i hlt
    · subst heq
      rw [List.getElem?_append_right (by rw [memoPass_len])]
      rw [memoPass_len, Nat.sub_self]
      rw [memoEntry_eq_naive gr env (memoPass gr env i).1 i
        (memoPass_len gr env i) (fun j hj => ih j hj)]
      rfl

/-- Claim C9: one memoized forward evaluation pass over an expression DAG
performs exactly one node computation per node of the graph (so every
node, shared or not, is evaluated at most once per pass and all its use
sites see the one consistent memoized value), and the memo table agrees at
every node with naive recursive re-evaluation of the tree-expansion rooted
at that node. -/
theorem memoized_eval_agrees_with_naive (gr : List DagNode) (env : ℕ → ℝ) :
    memoEvalOps gr env = gr.length ∧
    ∀ i, i < gr.length → (memoEval gr env)[i]? = some (naiveEval gr env i) :=
  ⟨memoPass_count gr env gr.length,
    fun i hi => memoPass_correct gr env gr.length i hi⟩

/-- A small DAG with a shared interior node: node 2 is referenced twice by
node 3 (two paths from the root to node 2), mirroring `W_w` being
referenced by two registered constraints in the notebook. -/
noncomputable def sharedDag : List DagNode :=
  [.varn 0, .cnst 2, .bin .mul 0 1, .bin .add 2 2]

/-- Claim C9 witness: the memoized pass over the shared-node DAG agrees
with naive evaluation at the root that references the shared node
twice. -/
theorem memoized_eval_agrees_with_naive_witness :
    3 < sharedDag.length ∧
    (memoEval sharedDag (fun _ => 0))[3]?
        = some (naiveEval sharedDag (fun _ => 0) 3) :=
  ⟨by norm_num [sharedDag],
    (memoized_eval_agrees_with_naive sharedDag (fun _ => 0)).2 3
      (by norm_num [sharedDag])⟩

end AeroSandboxSpec
